import Mathlib

/-!
Verification of the pulse-shift time-clocking client.

The development shallowly embeds the reminder/notification scheduler of
`src/pulse-shift/src/layouts/MainLayout.tsx` (the notification `useEffect` of
`TimeClockingPage`, together with its helpers `parseHHMMToDate` and
`calculateWorkDuration`).  Timestamps are modelled as integers counting
milliseconds; `todayBase` stands for the millisecond timestamp of today's local
midnight, so that `date.setHours(h, m, 0, 0)` becomes
`todayBase + h * 3600000 + m * 60000`.  One run of the `useEffect` body becomes
the pure function `evaluate`; the browser `Notification` constructor is
modelled by the messages collected in `EvalResult`, and a variant
`evaluateThrow` models a notification capability that throws.
-/

namespace PulseShift

/-- The four clocking events, from `EntryType` in `timeEntryTypes.ts`. -/
inductive EntryType where
  | ClockIn
  | ClockOut
  | BreakStart
  | BreakEnd
deriving DecidableEq, Repr

/-- A recorded clocking event (`TimeEntry`): its timestamp in milliseconds and
its type.  The identifier fields play no role in the scheduler. -/
structure TimeEntry where
  entryDate : Int
  entryType : EntryType
deriving DecidableEq, Repr

/-- The day's expected schedule (`DailySchedule`): four `HH:mm` strings. -/
structure DailySchedule where
  clockIn : String
  breakStart : String
  breakEnd : String
  clockOut : String
deriving DecidableEq, Repr

/-- The scheduler's owned state (`ActiveReminderInfo`). -/
structure ActiveReminderInfo where
  targetTime : Int
  eventName : String
  expectedEntryType : EntryType
  lastNotificationTime : Int
  isOverdue : Bool
deriving DecidableEq, Repr

/-- Browser notification permission. -/
inductive Permission where
  | granted
  | denied
  | defaultPerm
deriving DecidableEq, Repr

/-- A dispatched browser notification: title, body and de-duplication tag. -/
structure NotificationMsg where
  title : String
  body : String
  tag : String
deriving DecidableEq, Repr

/-- Whether a character is a decimal digit, as matched by `\d` in the
`/^\d\x7b2\x7d:\d\x7b2\x7d$/` test of `parseHHMMToDate`. -/
def isDigitChar (c : Char) : Bool :=
  '0' ≤ c && c ≤ '9'

/-- Numeric value of a digit character. -/
def digitVal (c : Char) : Int :=
  Int.ofNat (c.toNat - '0'.toNat)

/-- Embedding of `parseHHMMToDate` (MainLayout.tsx lines 296-302): a string is
accepted exactly when it consists of two digits, a colon and two digits; the
result is today's midnight plus the parsed hours and minutes (JavaScript's
`setHours` does not range-check, so `"99:99"` simply overflows into later
days, exactly as modelled here).  Any other string yields `null`/`none`. -/
def parseHHMMToDate (todayBase : Int) (timeStr : String) : Option Int :=
  match timeStr.toList with
  | [h1, h2, c, m1, m2] =>
    if isDigitChar h1 && isDigitChar h2 && c = ':' && isDigitChar m1 && isDigitChar m2 then
      some (todayBase + (digitVal h1 * 10 + digitVal h2) * 3600000
                      + (digitVal m1 * 10 + digitVal m2) * 60000)
    else none
  | _ => none

/-- The `HH:mm` shape test of `parseHHMMToDate`, on its own. -/
def matchesHHMM (timeStr : String) : Bool :=
  match timeStr.toList with
  | [h1, h2, c, m1, m2] =>
    isDigitChar h1 && isDigitChar h2 && c = ':' && isDigitChar m1 && isDigitChar m2
  | _ => false

/-- Comparison used by `sort((a, b) => a.entryDate.getTime() - b.entryDate.getTime())`. -/
def entryDateLE (a b : TimeEntry) : Prop :=
  a.entryDate ≤ b.entryDate

instance : DecidableRel entryDateLE := fun a b =>
  inferInstanceAs (Decidable (a.entryDate ≤ b.entryDate))

instance : IsTotal TimeEntry entryDateLE := ⟨fun a b => Int.le_total a.entryDate b.entryDate⟩

instance : IsTrans TimeEntry entryDateLE := ⟨fun _ _ _ h h' => le_trans h h'⟩

/-- Stable sort of today's entries by `entryDate`, as performed both by the
notification effect (line 363) and by `calculateWorkDuration` (line 156). -/
def sortEntries (entries : List TimeEntry) : List TimeEntry :=
  entries.insertionSort entryDateLE

/-- Truthiness-plus-comparison guard `t && t > now` used on parsed schedule
times: the parsed time when it exists and is still in the future. -/
def ifFuture (t : Option Int) (now : Int) : Option Int :=
  match t with
  | some x => if now < x then some x else none
  | none => none

/-- Reminder value built at each assignment of `nextScheduledEventTarget`
(lines 375, 380, 386, 389, 392, 396, 400): `lastNotificationTime` starts at
`now` and `isOverdue` at `false`. -/
def mkTarget (t : Int) (name : String) (ty : EntryType) (now : Int) : ActiveReminderInfo :=
  { targetTime := t, eventName := name, expectedEntryType := ty,
    lastNotificationTime := now, isOverdue := false }

/-- Step 2 of the notification effect (lines 362-403): determine the next
scheduled event from the chronologically last entry of the day. -/
def nextTarget (sched : DailySchedule) (todayBase now : Int)
    (lastEntry : Option TimeEntry) : Option ActiveReminderInfo :=
  let scheduleBreakStartTime := parseHHMMToDate todayBase sched.breakStart
  let scheduleBreakEndTime := parseHHMMToDate todayBase sched.breakEnd
  let scheduleClockOutTime := parseHHMMToDate todayBase sched.clockOut
  let bsReminder := fun t =>
    mkTarget t ("início de pausa (" ++ sched.breakStart ++ ")") EntryType.BreakStart now
  let beReminder := fun t =>
    mkTarget t ("fim de pausa (" ++ sched.breakEnd ++ ")") EntryType.BreakEnd now
  let coReminder := fun t =>
    mkTarget t ("saída (" ++ sched.clockOut ++ ")") EntryType.ClockOut now
  match lastEntry with
  | none =>
    let coFallback := (ifFuture scheduleClockOutTime now).map coReminder
    match parseHHMMToDate todayBase sched.clockIn, scheduleBreakStartTime with
    | some scheduleClockInTime, some bsT =>
      if scheduleClockInTime < now ∧ now < bsT then some (bsReminder bsT) else coFallback
    | some _, none => coFallback
    | none, _ => coFallback
  | some lastE =>
    match lastE.entryType with
    | EntryType.ClockIn =>
      match ifFuture scheduleBreakStartTime now with
      | some t => some (bsReminder t)
      | none =>
        match ifFuture scheduleBreakEndTime now with
        | some t => some (beReminder t)
        | none => (ifFuture scheduleClockOutTime now).map coReminder
    | EntryType.BreakStart => (ifFuture scheduleBreakEndTime now).map beReminder
    | EntryType.BreakEnd => (ifFuture scheduleClockOutTime now).map coReminder
    | EntryType.ClockOut => none

/-- The satisfaction predicate of step 1 (lines 323-326): an entry of the
expected type recorded no earlier than one minute before the target. -/
def satisfiesReminder (r : ActiveReminderInfo) (e : TimeEntry) : Bool :=
  decide (e.entryType = r.expectedEntryType) &&
    decide (r.targetTime - 1 * 60 * 1000 ≤ e.entryDate)

/-- Dropping a prefix never lengthens a list (used for termination of
`dashRuns`). -/
theorem length_dropWhile_le_local {α : Type} (p : α → Bool) :
    ∀ l : List α, (List.dropWhile p l).length ≤ l.length
  | [] => le_refl _
  | a :: l => by
    rw [List.dropWhile]
    split
    · exact Nat.le_succ_of_le (length_dropWhile_le_local p l)
    · exact le_refl _

/-- Collapse every whitespace run to a single dash, as
`eventName.replace(/\s+/g, '-')` does in the notification tags. -/
def dashRuns : List Char → List Char
  | [] => []
  | c :: rest =>
    if c.isWhitespace then '-' :: dashRuns (rest.dropWhile Char.isWhitespace)
    else c :: dashRuns rest
termination_by l => l.length
decreasing_by
  · exact Nat.lt_succ_of_le (length_dropWhile_le_local _ _)
  · simp

/-- String form of `dashRuns`. -/
def dashify (s : String) : String :=
  String.mk (dashRuns s.toList)

/-- JavaScript's `getMinutes()` on a millisecond timestamp measured from local
midnight boundaries. -/
def minutesOf (t : Int) : Int :=
  (t / 60000) % 60

/-- The recurring notification of lines 347-351. -/
def recurringMsg (r : ActiveReminderInfo) (now : Int) : NotificationMsg :=
  { title := "Pulse Shift - Ponto Pendente!",
    body := "Lembrete: Registrar " ++ r.eventName ++ ".",
    tag := "pulse-shift-recurring-" ++ dashify r.eventName ++ "-" ++ toString (minutesOf now) }

/-- The immediate (late) initial notification of lines 427-431. -/
def initialLateMsg (r : ActiveReminderInfo) : NotificationMsg :=
  { title := "Pulse Shift - Lembrete de Ponto",
    body := "Seu " ++ r.eventName ++ " está chegando!",
    tag := "pulse-shift-initial-late-" ++ dashify r.eventName }

/-- Outcome of one run of the notification effect: the resulting
`activeReminder` state, the notifications dispatched during the run, and the
delay of the one-shot timer left pending (the run always cancels the previous
timer first, lines 306-309). -/
structure EvalResult where
  reminder : Option ActiveReminderInfo
  recurring : Option NotificationMsg
  initialLate : Option NotificationMsg
  timerDelay : Option Int
deriving DecidableEq, Repr

/-- Result of a run that neither keeps a reminder, notifies, nor leaves a
timer pending. -/
def noAction : EvalResult :=
  { reminder := none, recurring := none, initialLate := none, timerDelay := none }

/-- One run of the notification `useEffect` (MainLayout.tsx lines 305-447) as
a pure function of the `(permission, schedule, now, entries, activeReminder)`
tuple.  `todayBase` is today's local midnight, used by `parseHHMMToDate`.
Structure mirrors the source: the permission/schedule guard, step 1
(satisfaction, expiry, recurrence — the overdue branch always returns), step 2
(`nextTarget` over the sorted entries' last element), step 3 (timer, immediate
late initial notification, or direct overdue seeding) and step 4 (the overdue
transition, which reads the closure's `activeReminder`, hence only fires on
the fall-through path of a not-yet-overdue reminder). -/
def evaluate (permission : Permission) (schedule : Option DailySchedule)
    (todayBase now : Int) (entries : List TimeEntry)
    (activeReminder : Option ActiveReminderInfo) : EvalResult :=
  match schedule, permission with
  | some dailySchedule, Permission.granted =>
    match activeReminder with
    | some r =>
      if (entries.find? (satisfiesReminder r)).isSome then
        noAction
      else if r.targetTime + 60 * 60 * 1000 < now then
        noAction
      else if r.isOverdue then
        if r.lastNotificationTime + 2 * 60 * 1000 ≤ now then
          { reminder := some { r with lastNotificationTime := now },
            recurring := some (recurringMsg r now),
            initialLate := none, timerDelay := none }
        else
          { reminder := some r, recurring := none, initialLate := none, timerDelay := none }
      else
        if r.targetTime ≤ now then
          { reminder := some { r with isOverdue := true, lastNotificationTime := now },
            recurring := none, initialLate := none, timerDelay := none }
        else
          { reminder := some r, recurring := none, initialLate := none, timerDelay := none }
    | none =>
      match nextTarget dailySchedule todayBase now ((sortEntries entries).getLast?) with
      | none => noAction
      | some target =>
        let initialNotificationTime := target.targetTime - 2 * 60 * 1000
        if now < initialNotificationTime then
          { reminder := none, recurring := none, initialLate := none,
            timerDelay := some (initialNotificationTime - now) }
        else if now < target.targetTime then
          { reminder := some { target with lastNotificationTime := now },
            recurring := none, initialLate := some (initialLateMsg target),
            timerDelay := none }
        else
          { reminder := some { target with
              lastNotificationTime := now - (2 * 60 * 1000) + 100, isOverdue := true },
            recurring := none, initialLate := none, timerDelay := none }
  | _, _ => noAction

/-- The same run with a notification capability that may throw
(`notifyOk = false`): the source wraps neither `new Notification` call in a
`try`/`catch`, so a throw aborts the effect at the dispatch point; the
`setActiveReminder` call that follows each dispatch is skipped, leaving the
React state at its pre-run value. -/
def evaluateThrow (notifyOk : Bool) (permission : Permission)
    (schedule : Option DailySchedule) (todayBase now : Int) (entries : List TimeEntry)
    (activeReminder : Option ActiveReminderInfo) : Except Unit EvalResult :=
  match schedule, permission with
  | some dailySchedule, Permission.granted =>
    match activeReminder with
    | some r =>
      if (entries.find? (satisfiesReminder r)).isSome then
        Except.ok noAction
      else if r.targetTime + 60 * 60 * 1000 < now then
        Except.ok noAction
      else if r.isOverdue then
        if r.lastNotificationTime + 2 * 60 * 1000 ≤ now then
          if notifyOk then
            Except.ok
              { reminder := some { r with lastNotificationTime := now },
                recurring := some (recurringMsg r now),
                initialLate := none, timerDelay := none }
          else Except.error ()
        else
          Except.ok
            { reminder := some r, recurring := none, initialLate := none,
              timerDelay := none }
      else
        if r.targetTime ≤ now then
          Except.ok
            { reminder := some { r with isOverdue := true, lastNotificationTime := now },
              recurring := none, initialLate := none, timerDelay := none }
        else
          Except.ok
            { reminder := some r, recurring := none, initialLate := none,
              timerDelay := none }
    | none =>
      match nextTarget dailySchedule todayBase now ((sortEntries entries).getLast?) with
      | none => Except.ok noAction
      | some target =>
        let initialNotificationTime := target.targetTime - 2 * 60 * 1000
        if now < initialNotificationTime then
          Except.ok
            { reminder := none, recurring := none, initialLate := none,
              timerDelay := some (initialNotificationTime - now) }
        else if now < target.targetTime then
          if notifyOk then
            Except.ok
              { reminder := some { target with lastNotificationTime := now },
                recurring := none, initialLate := some (initialLateMsg target),
                timerDelay := none }
          else Except.error ()
        else
          Except.ok
            { reminder := some { target with
                lastNotificationTime := now - (2 * 60 * 1000) + 100, isOverdue := true },
              recurring := none, initialLate := none, timerDelay := none }
  | _, _ => Except.ok noAction

/-! ### Work-duration computation (`calculateWorkDuration`, lines 150-184) -/

/-- Loop state of `calculateWorkDuration`: accumulated seconds, the pending
`lastActiveEntryTime`, and the `currentlyWorking` flag. -/
structure WorkAcc where
  calculatedTotalSeconds : ℚ
  lastActiveEntryTime : Option Int
  currentlyWorking : Bool
deriving DecidableEq, Repr

/-- The `for` loop of `calculateWorkDuration` (lines 158-173).  A `ClockIn` or
`BreakEnd` entry records `lastActiveEntryTime` and, when it is the final entry
(`i === sortedEntries.length - 1`, i.e. the rest of the list is empty), marks
the user as currently working; a `ClockOut` or `BreakStart` entry with a
pending active time closes the segment, adding its duration in seconds. -/
def workLoop : WorkAcc → List TimeEntry → WorkAcc
  | acc, [] => acc
  | acc, entry :: rest =>
    if entry.entryType = EntryType.ClockIn ∨ entry.entryType = EntryType.BreakEnd then
      workLoop
        { acc with
            lastActiveEntryTime := some entry.entryDate,
            currentlyWorking := if rest.isEmpty then true else acc.currentlyWorking } rest
    else
      match acc.lastActiveEntryTime with
      | some t =>
        workLoop
          { calculatedTotalSeconds :=
              acc.calculatedTotalSeconds + ((entry.entryDate - t : Int) : ℚ) / 1000,
            lastActiveEntryTime := none, currentlyWorking := false } rest
      | none => workLoop acc rest

/-- Embedding of `calculateWorkDuration`: sorts the entries, runs the segment
loop, and when still working adds the open segment up to `currentTickTime`.
Returns the pair handed to the two `useState` setters:
`(totalWorkedSecondsToday, isCurrentlyWorking)`. -/
def calculateWorkDuration (entries : List TimeEntry) (currentTickTime : Int) : ℚ × Bool :=
  let sortedEntries := sortEntries entries
  let acc := workLoop { calculatedTotalSeconds := 0, lastActiveEntryTime := none,
                        currentlyWorking := false } sortedEntries
  if acc.currentlyWorking then
    match acc.lastActiveEntryTime with
    | some t =>
      (acc.calculatedTotalSeconds + ((currentTickTime - t : Int) : ℚ) / 1000,
       acc.currentlyWorking)
    | none => (acc.calculatedTotalSeconds, acc.currentlyWorking)
  else (acc.calculatedTotalSeconds, acc.currentlyWorking)

/-! ### Specification-side definitions

These definitions follow the wording of the specification and of the claims,
not the source; the theorems below compare them with the embedded code. -/

/-- An entry type that starts (or resumes) work. -/
def isActiveType : EntryType → Bool
  | EntryType.ClockIn => true
  | EntryType.BreakEnd => true
  | EntryType.ClockOut => false
  | EntryType.BreakStart => false

mutual

/-- Modelled from the claim on `calculateWorkDuration`: the sum, in seconds,
over completed segments, each running from a `ClockIn` or `BreakEnd` entry to
the next following `ClockOut` or `BreakStart` entry. -/
def specSegments : List TimeEntry → ℚ
  | [] => 0
  | e :: rest =>
    if isActiveType e.entryType then specOpenSegment e.entryDate rest
    else specSegments rest

/-- A segment opened at `start` is closed by the next `ClockOut`/`BreakStart`
entry; a later `ClockIn`/`BreakEnd` supersedes the opening point. -/
def specOpenSegment (start : Int) : List TimeEntry → ℚ
  | [] => 0
  | e :: rest =>
    if isActiveType e.entryType then specOpenSegment e.entryDate rest
    else ((e.entryDate - start : Int) : ℚ) / 1000 + specSegments rest

end

/-- The claim's working criterion: the chronologically last entry has type
`ClockIn` or `BreakEnd`. -/
def specCurrentlyWorking (l : List TimeEntry) : Bool :=
  match l.getLast? with
  | some e => isActiveType e.entryType
  | none => false

/-- Date of the last `ClockIn` or `BreakEnd` entry of the list. -/
def lastActiveEntryDate (l : List TimeEntry) : Option Int :=
  ((l.filter fun e => isActiveType e.entryType).getLast?).map TimeEntry.entryDate

/-- Modelled from the claim on `calculateWorkDuration`: completed segments
plus, exactly when currently working, the seconds elapsed from the last
`ClockIn`/`BreakEnd` entry to the current tick time. -/
def specWorkedSeconds (l : List TimeEntry) (tick : Int) : ℚ :=
  specSegments l +
    (if specCurrentlyWorking l then
       match lastActiveEntryDate l with
       | some t => ((tick - t : Int) : ℚ) / 1000
       | none => 0
     else 0)

/-- Modelled from the spec: whether the scheduled clock-in time has already
passed (a malformed clock-in time never counts as passed). -/
def specClockInPassed (sched : DailySchedule) (todayBase now : Int) : Bool :=
  match parseHHMMToDate todayBase sched.clockIn with
  | some t => decide (t < now)
  | none => false

/-- Modelled from the spec: a schedule slot that parses and is still in the
future relative to `now`. -/
def stillFuture (todayBase now : Int) (slot : String) : Option Int :=
  match parseHHMMToDate todayBase slot with
  | some t => if now < t then some t else none
  | none => none

/-- Modelled from the spec (step 2): the next target event — its expected
entry type and its scheduled time — as a function of the type of the
chronologically last entry alone. -/
def specNextTarget (sched : DailySchedule) (todayBase now : Int)
    (lastType : Option EntryType) : Option (EntryType × Int) :=
  match lastType with
  | none =>
    match (if specClockInPassed sched todayBase now then
             stillFuture todayBase now sched.breakStart
           else none) with
    | some t => some (EntryType.BreakStart, t)
    | none => (stillFuture todayBase now sched.clockOut).map fun t => (EntryType.ClockOut, t)
  | some EntryType.ClockIn =>
    match stillFuture todayBase now sched.breakStart with
    | some t => some (EntryType.BreakStart, t)
    | none =>
      match stillFuture todayBase now sched.breakEnd with
      | some t => some (EntryType.BreakEnd, t)
      | none => (stillFuture todayBase now sched.clockOut).map fun t => (EntryType.ClockOut, t)
  | some EntryType.BreakStart =>
    (stillFuture todayBase now sched.breakEnd).map fun t => (EntryType.BreakEnd, t)
  | some EntryType.BreakEnd =>
    (stillFuture todayBase now sched.clockOut).map fun t => (EntryType.ClockOut, t)
  | some EntryType.ClockOut => none

/-! ### Helper lemmas -/

/-- A log entry of the expected type, recorded at or after the target minus
the one-minute margin, makes the `find?` of the satisfaction check succeed. -/
theorem find?_satisfies_isSome (r : ActiveReminderInfo) (entries : List TimeEntry)
    (h : ∃ e ∈ entries, e.entryType = r.expectedEntryType ∧
          r.targetTime - 1 * 60 * 1000 ≤ e.entryDate) :
    (entries.find? (satisfiesReminder r)).isSome = true := by
  rw [List.find?_isSome]
  obtain ⟨e, he, h1, h2⟩ := h
  refine ⟨e, he, ?_⟩
  simp only [satisfiesReminder, Bool.and_eq_true, decide_eq_true_eq]
  exact ⟨h1, h2⟩

/-- When no log entry satisfies the reminder, the `find?` of the satisfaction
check fails. -/
theorem find?_satisfies_eq_none (r : ActiveReminderInfo) (entries : List TimeEntry)
    (h : ∀ e ∈ entries, ¬(e.entryType = r.expectedEntryType ∧
          r.targetTime - 1 * 60 * 1000 ≤ e.entryDate)) :
    entries.find? (satisfiesReminder r) = none := by
  rw [List.find?_eq_none]
  intro e he
  simp only [satisfiesReminder, Bool.and_eq_true, decide_eq_true_eq, not_and]
  intro h1 h2
  exact h e he ⟨h1, h2⟩

/-! ### C2 — satisfaction clears the reminder -/

/-- C2: in every evaluation cycle with an active reminder, if some entry in
today's log has the reminder's expected entry type and an `entryDate` at or
after `targetTime` minus one minute, the cycle clears the reminder and fires
no notification. -/
theorem satisfaction_clears_reminder
    (sched : DailySchedule) (todayBase now : Int) (entries : List TimeEntry)
    (r : ActiveReminderInfo)
    (h : ∃ e ∈ entries, e.entryType = r.expectedEntryType ∧
          r.targetTime - 1 * 60 * 1000 ≤ e.entryDate) :
    evaluate Permission.granted (some sched) todayBase now entries (some r) = noAction := by
  have hfind := find?_satisfies_isSome r entries h
  simp [evaluate, hfind]

/-- Witness for C2, the spec's own scenario: an active reminder targeting
`BreakStart` at `12:00` is cleared by a `BreakStart` entry at `12:00:30`
(milliseconds from today's midnight). -/
theorem satisfaction_clears_reminder_witness :
    evaluate Permission.granted (some ⟨"08:00", "12:00", "13:00", "17:00"⟩) 0 43230000
        [⟨43230000, EntryType.BreakStart⟩]
        (some ⟨43200000, "início de pausa (12:00)", EntryType.BreakStart, 43100000, true⟩) =
      noAction :=
  satisfaction_clears_reminder _ 0 43230000 _ _
    ⟨⟨43230000, EntryType.BreakStart⟩, by simp, rfl, by decide⟩

/-! ### C4 — expiry clears the reminder -/

/-- C4: in every evaluation cycle with an active reminder and no satisfying
entry in the log, if `now` is more than 60 minutes past `targetTime` the cycle
clears the reminder. -/
theorem expiry_clears_reminder
    (sched : DailySchedule) (todayBase now : Int) (entries : List TimeEntry)
    (r : ActiveReminderInfo)
    (hsat : ∀ e ∈ entries, ¬(e.entryType = r.expectedEntryType ∧
          r.targetTime - 1 * 60 * 1000 ≤ e.entryDate))
    (hexp : r.targetTime + 60 * 60 * 1000 < now) :
    evaluate Permission.granted (some sched) todayBase now entries (some r) = noAction := by
  have hfind := find?_satisfies_eq_none r entries hsat
  have hexp' : r.targetTime + 3600000 < now := by omega
  simp [evaluate, hfind, hexp']

/-- Witness for C4, the spec's own scenario: a reminder with
`targetTime = 12:00` and an empty log is cleared when evaluated at
`now = 13:00:01`. -/
theorem expiry_clears_reminder_witness :
    evaluate Permission.granted (some ⟨"08:00", "12:00", "13:00", "17:00"⟩) 0 46801000 []
        (some ⟨43200000, "início de pausa (12:00)", EntryType.BreakStart, 43100000, true⟩) =
      noAction :=
  expiry_clears_reminder _ 0 46801000 [] _ (by simp) (by decide)

/-! ### C3 — recurrence cadence -/

/-- C3: with an active overdue reminder that is neither satisfied nor expired,
no recurring notification fires while `now < lastNotificationTime + 2min` and
the reminder is kept unchanged; at an evaluation with
`now ≥ lastNotificationTime + 2min` exactly one recurring notification fires,
`lastNotificationTime` is updated to `now`, and the reminder stays active. -/
theorem recurrence_cadence
    (sched : DailySchedule) (todayBase now : Int) (entries : List TimeEntry)
    (r : ActiveReminderInfo)
    (hsat : ∀ e ∈ entries, ¬(e.entryType = r.expectedEntryType ∧
          r.targetTime - 1 * 60 * 1000 ≤ e.entryDate))
    (hexp : ¬(r.targetTime + 60 * 60 * 1000 < now))
    (hover : r.isOverdue = true) :
    (now < r.lastNotificationTime + 2 * 60 * 1000 →
      evaluate Permission.granted (some sched) todayBase now entries (some r) =
        { reminder := some r, recurring := none, initialLate := none, timerDelay := none })
    ∧ (r.lastNotificationTime + 2 * 60 * 1000 ≤ now →
      evaluate Permission.granted (some sched) todayBase now entries (some r) =
        { reminder := some { r with lastNotificationTime := now },
          recurring := some (recurringMsg r now),
          initialLate := none, timerDelay := none }) := by
  have hfind := find?_satisfies_eq_none r entries hsat
  have hexp' : ¬(r.targetTime + 3600000 < now) := by omega
  constructor
  · intro hlt
    have hnot : ¬(r.lastNotificationTime + 120000 ≤ now) := by omega
    simp [evaluate, hfind, hexp', hover, hnot]
  · intro hle
    have hle' : r.lastNotificationTime + 120000 ≤ now := by omega
    simp [evaluate, hfind, hexp', hover, hle']

/-- Witness for C3 at a concrete overdue reminder with
`lastNotificationTime = 12:00`: silent at `12:01:50`, firing at `12:02:10`. -/
theorem recurrence_cadence_witness :
    evaluate Permission.granted (some ⟨"08:00", "12:00", "13:00", "17:00"⟩) 0 43310000
        [⟨28800000, EntryType.ClockIn⟩]
        (some ⟨43200000, "início de pausa (12:00)", EntryType.BreakStart, 43200000, true⟩) =
      { reminder := some ⟨43200000, "início de pausa (12:00)", EntryType.BreakStart,
          43200000, true⟩,
        recurring := none, initialLate := none, timerDelay := none } :=
  (recurrence_cadence _ 0 43310000 _ _ (by decide) (by decide) rfl).1 (by decide)

/-- Inverting `(ifFuture t now).map f = some r`. -/
theorem ifFuture_map_eq_some {α : Type} {t : Option Int} {now : Int} {f : Int → α} {r : α}
    (h : (ifFuture t now).map f = some r) :
    ∃ x, t = some x ∧ now < x ∧ f x = r := by
  cases t with
  | none => simp [ifFuture] at h
  | some x =>
    by_cases hlt : now < x
    · simp [ifFuture, hlt] at h
      exact ⟨x, rfl, hlt, h⟩
    · simp [ifFuture, hlt] at h

/-- Inverting `ifFuture t now = some x`. -/
theorem ifFuture_eq_some {t : Option Int} {now x : Int} (h : ifFuture t now = some x) :
    t = some x ∧ now < x := by
  cases t with
  | none => simp [ifFuture] at h
  | some y =>
    by_cases hlt : now < y
    · simp [ifFuture, hlt] at h
      subst h
      exact ⟨rfl, hlt⟩
    · simp [ifFuture, hlt] at h

/-- Characterization of any target produced by step 2: it is strictly in the
future, starts not overdue with `lastNotificationTime = now`, and its expected
entry type matches the schedule slot its time was parsed from (never
`ClockIn`). -/
theorem nextTarget_characterization (sched : DailySchedule) (todayBase now : Int)
    (lastEntry : Option TimeEntry) (r : ActiveReminderInfo)
    (h : nextTarget sched todayBase now lastEntry = some r) :
    now < r.targetTime ∧ r.isOverdue = false ∧ r.lastNotificationTime = now ∧
      ((r.expectedEntryType = EntryType.BreakStart ∧
          parseHHMMToDate todayBase sched.breakStart = some r.targetTime) ∨
       (r.expectedEntryType = EntryType.BreakEnd ∧
          parseHHMMToDate todayBase sched.breakEnd = some r.targetTime) ∨
       (r.expectedEntryType = EntryType.ClockOut ∧
          parseHHMMToDate todayBase sched.clockOut = some r.targetTime)) := by
  cases lastEntry with
  | none =>
    rcases hci : parseHHMMToDate todayBase sched.clockIn with _ | ciT <;>
      rcases hbs : parseHHMMToDate todayBase sched.breakStart with _ | bsT <;>
      simp only [nextTarget, hci, hbs] at h
    · obtain ⟨x, hco, hlt, hr⟩ := ifFuture_map_eq_some h
      subst hr
      exact ⟨hlt, rfl, rfl, Or.inr (Or.inr ⟨rfl, hco⟩)⟩
    · obtain ⟨x, hco, hlt, hr⟩ := ifFuture_map_eq_some h
      subst hr
      exact ⟨hlt, rfl, rfl, Or.inr (Or.inr ⟨rfl, hco⟩)⟩
    · obtain ⟨x, hco, hlt, hr⟩ := ifFuture_map_eq_some h
      subst hr
      exact ⟨hlt, rfl, rfl, Or.inr (Or.inr ⟨rfl, hco⟩)⟩
    · by_cases hcond : ciT < now ∧ now < bsT
      · rw [if_pos hcond, Option.some.injEq] at h
        subst h
        exact ⟨hcond.2, rfl, rfl, Or.inl ⟨rfl, rfl⟩⟩
      · rw [if_neg hcond] at h
        obtain ⟨x, hco, hlt, hr⟩ := ifFuture_map_eq_some h
        subst hr
        exact ⟨hlt, rfl, rfl, Or.inr (Or.inr ⟨rfl, hco⟩)⟩
  | some lastE =>
    obtain ⟨d, ty⟩ := lastE
    cases ty <;> simp only [nextTarget] at h
    case ClockIn =>
      rcases hbs' : ifFuture (parseHHMMToDate todayBase sched.breakStart) now with _ | t <;>
        simp only [hbs'] at h
      · rcases hbe' : ifFuture (parseHHMMToDate todayBase sched.breakEnd) now with _ | t <;>
          simp only [hbe'] at h
        · obtain ⟨x, hco, hlt, hr⟩ := ifFuture_map_eq_some h
          subst hr
          exact ⟨hlt, rfl, rfl, Or.inr (Or.inr ⟨rfl, hco⟩)⟩
        · rw [Option.some.injEq] at h
          subst h
          obtain ⟨hbe, hlt⟩ := ifFuture_eq_some hbe'
          exact ⟨hlt, rfl, rfl, Or.inr (Or.inl ⟨rfl, hbe⟩)⟩
      · rw [Option.some.injEq] at h
        subst h
        obtain ⟨hbs, hlt⟩ := ifFuture_eq_some hbs'
        exact ⟨hlt, rfl, rfl, Or.inl ⟨rfl, hbs⟩⟩
    case ClockOut => exact Option.noConfusion h
    case BreakStart =>
      obtain ⟨x, hbe, hlt, hr⟩ := ifFuture_map_eq_some h
      subst hr
      exact ⟨hlt, rfl, rfl, Or.inr (Or.inl ⟨rfl, hbe⟩)⟩
    case BreakEnd =>
      obtain ⟨x, hco, hlt, hr⟩ := ifFuture_map_eq_some h
      subst hr
      exact ⟨hlt, rfl, rfl, Or.inr (Or.inr ⟨rfl, hco⟩)⟩

/-! ### C1 — next-target determination -/

/-- C1: with permission granted, a schedule present and no reminder surviving
reconciliation, the next target event (its expected entry type and scheduled
time) is exactly the one the spec derives from the type of the
chronologically last entry alone; and with last entry `ClockOut` the cycle
produces no target: no reminder, no notification and no timer. -/
theorem next_target_determination (sched : DailySchedule) (todayBase now : Int) :
    (∀ lastEntry : Option TimeEntry,
        (nextTarget sched todayBase now lastEntry).map
            (fun r => (r.expectedEntryType, r.targetTime)) =
          specNextTarget sched todayBase now (lastEntry.map TimeEntry.entryType))
    ∧ (∀ entries : List TimeEntry,
        ((sortEntries entries).getLast?).map TimeEntry.entryType = some EntryType.ClockOut →
          evaluate Permission.granted (some sched) todayBase now entries none = noAction) := by
  constructor
  · intro lastEntry
    cases lastEntry with
    | none =>
      rcases hci : parseHHMMToDate todayBase sched.clockIn with _ | ciT <;>
        rcases hbs : parseHHMMToDate todayBase sched.breakStart with _ | bsT <;>
        rcases hco : parseHHMMToDate todayBase sched.clockOut with _ | coT <;>
        simp [nextTarget, specNextTarget, specClockInPassed, stillFuture, ifFuture,
          hci, hbs, hco, mkTarget] <;>
        split_ifs <;> simp_all
    | some lastE =>
      obtain ⟨d, ty⟩ := lastE
      cases ty <;>
        rcases hbs : parseHHMMToDate todayBase sched.breakStart with _ | bsT <;>
        rcases hbe : parseHHMMToDate todayBase sched.breakEnd with _ | beT <;>
        rcases hco : parseHHMMToDate todayBase sched.clockOut with _ | coT <;>
        simp [nextTarget, specNextTarget, stillFuture, ifFuture,
          hbs, hbe, hco, mkTarget] <;>
        split_ifs <;> simp_all
  · intro entries hlast
    rcases hsl : (sortEntries entries).getLast? with _ | e
    · rw [hsl] at hlast
      exact Option.noConfusion hlast
    · rw [hsl] at hlast
      simp only [Option.map_some', Option.some.injEq] at hlast
      simp [evaluate, hsl, nextTarget, hlast]

/-- Witness for C1 at a concrete schedule: with last entry `ClockIn` at
`08:00` and `now = 12:05` the target is the first still-future slot
(`breakEnd` at `13:00`), and with last entry `ClockOut` the cycle does
nothing. -/
theorem next_target_determination_witness :
    ((nextTarget ⟨"08:00", "12:00", "13:00", "17:00"⟩ 0 43500000
          (some ⟨28800000, EntryType.ClockIn⟩)).map
        (fun r => (r.expectedEntryType, r.targetTime)) =
      specNextTarget ⟨"08:00", "12:00", "13:00", "17:00"⟩ 0 43500000
        (some EntryType.ClockIn))
    ∧ evaluate Permission.granted (some ⟨"08:00", "12:00", "13:00", "17:00"⟩) 0 43500000
        [⟨28800000, EntryType.ClockIn⟩, ⟨61200000, EntryType.ClockOut⟩] none = noAction :=
  ⟨(next_target_determination _ 0 43500000).1 _,
   (next_target_determination _ 0 43500000).2 _ (by decide)⟩

/-- A string rejected by the `HH:mm` shape test is parsed to `null`. -/
theorem parse_none_of_malformed (todayBase : Int) (s : String)
    (h : matchesHHMM s = false) : parseHHMMToDate todayBase s = none := by
  unfold matchesHHMM at h
  unfold parseHHMMToDate
  split
  case h_1 h1 h2 c m1 m2 heq =>
    rw [heq] at h
    simp only at h
    rw [if_neg]
    simp [h]
  case h_2 => rfl

/-- Inversion of a run with no active reminder that ends with a reminder set:
the reminder comes from the step-2 target via the immediate initial
notification branch. -/
theorem evaluate_noReminder_inv (sched : DailySchedule) (todayBase now : Int)
    (entries : List TimeEntry) (r : ActiveReminderInfo)
    (h : (evaluate Permission.granted (some sched) todayBase now entries none).reminder =
      some r) :
    ∃ target, nextTarget sched todayBase now ((sortEntries entries).getLast?) = some target ∧
      r = { target with lastNotificationTime := now } := by
  rcases hnt : nextTarget sched todayBase now ((sortEntries entries).getLast?) with _ | target
  · simp [evaluate, hnt, noAction] at h
  · have hchar := nextTarget_characterization _ _ _ _ _ hnt
    simp only [evaluate, hnt] at h
    split_ifs at h with h1 h2
    · simp only [Option.some.injEq] at h
      exact ⟨target, rfl, h.symm⟩
    · exact absurd hchar.1 h2

/-- Inversion of a run carrying an active reminder that ends with a reminder
set: target time and expected entry type are preserved. -/
theorem evaluate_someReminder_inv (sched : DailySchedule) (todayBase now : Int)
    (entries : List TimeEntry) (r0 r : ActiveReminderInfo)
    (h : (evaluate Permission.granted (some sched) todayBase now entries (some r0)).reminder =
      some r) :
    r.expectedEntryType = r0.expectedEntryType ∧ r.targetTime = r0.targetTime := by
  simp only [evaluate] at h
  split_ifs at h <;> simp only [noAction, Option.some.injEq] at h <;>
    first
    | exact Option.noConfusion h
    | (subst h; exact ⟨rfl, rfl⟩)

/-! ### C9 — no reminder ever targets `ClockIn` -/

/-- C9: step 2 never produces a `ClockIn` target; the evaluation cycle
preserves the invariant that the active reminder never expects `ClockIn`; and
with no entries and the clock-in time not yet passed, the only possible
target is `clockOut`. -/
theorem no_clockin_reminder :
    (∀ (sched : DailySchedule) (todayBase now : Int) (lastEntry : Option TimeEntry)
        (r : ActiveReminderInfo), nextTarget sched todayBase now lastEntry = some r →
        r.expectedEntryType ≠ EntryType.ClockIn)
    ∧ (∀ (permission : Permission) (schedule : Option DailySchedule) (todayBase now : Int)
        (entries : List TimeEntry) (ar : Option ActiveReminderInfo),
        (∀ r0 ∈ ar, r0.expectedEntryType ≠ EntryType.ClockIn) →
        ∀ r ∈ (evaluate permission schedule todayBase now entries ar).reminder,
          r.expectedEntryType ≠ EntryType.ClockIn)
    ∧ (∀ (sched : DailySchedule) (todayBase now : Int),
        specClockInPassed sched todayBase now = false →
        ∀ r, nextTarget sched todayBase now none = some r →
          r.expectedEntryType = EntryType.ClockOut) := by
  refine ⟨?_, ?_, ?_⟩
  · intro sched todayBase now lastEntry r h
    rcases (nextTarget_characterization _ _ _ _ _ h).2.2.2 with ⟨ht, _⟩ | ⟨ht, _⟩ | ⟨ht, _⟩ <;>
      simp [ht]
  · intro permission schedule todayBase now entries ar har r hr
    rw [Option.mem_def] at hr
    cases schedule with
    | none => simp [evaluate, noAction] at hr
    | some sched =>
      cases permission with
      | denied => simp [evaluate, noAction] at hr
      | defaultPerm => simp [evaluate, noAction] at hr
      | granted =>
        cases ar with
        | none =>
          obtain ⟨target, hnt, hr'⟩ := evaluate_noReminder_inv _ _ _ _ _ hr
          subst hr'
          rcases (nextTarget_characterization _ _ _ _ _ hnt).2.2.2 with
            ⟨ht, _⟩ | ⟨ht, _⟩ | ⟨ht, _⟩ <;> simp [ht]
        | some r0 =>
          obtain ⟨hty, _⟩ := evaluate_someReminder_inv _ _ _ _ _ _ hr
          rw [hty]
          exact har r0 rfl
  · intro sched todayBase now hpass r h
    rcases hci : parseHHMMToDate todayBase sched.clockIn with _ | ciT <;>
      rcases hbs : parseHHMMToDate todayBase sched.breakStart with _ | bsT <;>
      simp only [nextTarget, hci, hbs] at h
    · obtain ⟨x, hco, hlt, hr⟩ := ifFuture_map_eq_some h
      subst hr
      rfl
    · obtain ⟨x, hco, hlt, hr⟩ := ifFuture_map_eq_some h
      subst hr
      rfl
    · obtain ⟨x, hco, hlt, hr⟩ := ifFuture_map_eq_some h
      subst hr
      rfl
    · rw [specClockInPassed, hci] at hpass
      simp only [decide_eq_false_iff_not] at hpass
      rw [if_neg (fun hc => hpass hc.1)] at h
      obtain ⟨x, hco, hlt, hr⟩ := ifFuture_map_eq_some h
      subst hr
      rfl

/-- Witness for C9: the invariant application at a concrete cycle that keeps
a `BreakStart` reminder active, and the no-entries/not-yet-clock-in case at a
concrete early-morning evaluation producing a `ClockOut` target. -/
theorem no_clockin_reminder_witness :
    (∀ r ∈ (evaluate Permission.granted (some ⟨"08:00", "12:00", "13:00", "17:00"⟩) 0
        43310000 [⟨28800000, EntryType.ClockIn⟩]
        (some ⟨43200000, "início de pausa (12:00)", EntryType.BreakStart, 43200000,
          true⟩)).reminder,
      r.expectedEntryType ≠ EntryType.ClockIn)
    ∧ ∀ r, nextTarget ⟨"08:00", "12:00", "13:00", "17:00"⟩ 0 25200000 none = some r →
        r.expectedEntryType = EntryType.ClockOut :=
  ⟨no_clockin_reminder.2.1 Permission.granted _ 0 43310000 _ _ (by decide),
   no_clockin_reminder.2.2 _ 0 25200000 (by decide)⟩

/-! ### C5 — late-start overdue seeding (dead branch) -/

/-- C5: the overdue-seeding branch of step 3 is unreachable.  Every target
produced by step 2 is strictly in the future, so a cycle that starts with no
active reminder can only ever set a reminder with `isOverdue = false`; in
particular, the spec's late-start scenario (`now = 12:05`, `breakStart`
already passed at `12:00`, last entry `ClockIn`) creates no reminder at all —
it only schedules the initial-notification timer for the next future slot. -/
theorem late_start_overdue_seeding_missing :
    (∀ (sched : DailySchedule) (todayBase now : Int) (lastEntry : Option TimeEntry)
        (r : ActiveReminderInfo),
        nextTarget sched todayBase now lastEntry = some r → now < r.targetTime)
    ∧ (∀ (sched : DailySchedule) (todayBase now : Int) (entries : List TimeEntry)
        (r : ActiveReminderInfo),
        (evaluate Permission.granted (some sched) todayBase now entries none).reminder =
          some r → r.isOverdue = false)
    ∧ evaluate Permission.granted (some ⟨"08:00", "12:00", "13:00", "17:00"⟩) 0 43500000
        [⟨28800000, EntryType.ClockIn⟩] none =
      { reminder := none, recurring := none, initialLate := none,
        timerDelay := some 3180000 } := by
  refine ⟨?_, ?_, by decide⟩
  · intro sched todayBase now lastEntry r h
    exact (nextTarget_characterization _ _ _ _ _ h).1
  · intro sched todayBase now entries r h
    obtain ⟨target, hnt, hr'⟩ := evaluate_noReminder_inv _ _ _ _ _ h
    subst hr'
    exact (nextTarget_characterization _ _ _ _ _ hnt).2.1

/-- Witness for C5: a cycle that does create a reminder (the immediate
initial-notification window before `breakEnd`) creates it with
`isOverdue = false`. -/
theorem late_start_overdue_seeding_missing_witness :
    (⟨46800000, "fim de pausa (13:00)", EntryType.BreakEnd, 46700000, false⟩ :
        ActiveReminderInfo).isOverdue = false :=
  late_start_overdue_seeding_missing.2.1 ⟨"08:00", "12:00", "13:00", "17:00"⟩ 0 46700000
    [⟨43200000, EntryType.BreakStart⟩] _ (by decide)

/-! ### C6 — determinism and idempotence of the evaluation cycle -/

/-- C6: the evaluation cycle is a function of the
`(now, entries, schedule, permission, activeReminder)` tuple: two runs on
equal tuples produce the same resulting state, the same notifications
(including their de-duplication tags) and the same pending timer, so invoking
the cycle redundantly cannot drift the state or duplicate a notification. -/
theorem evaluation_deterministic
    (p p' : Permission) (osched osched' : Option DailySchedule)
    (todayBase todayBase' now now' : Int) (entries entries' : List TimeEntry)
    (ar ar' : Option ActiveReminderInfo)
    (hp : p = p') (hs : osched = osched') (hb : todayBase = todayBase') (hn : now = now')
    (he : entries = entries') (hr : ar = ar') :
    evaluate p osched todayBase now entries ar =
      evaluate p' osched' todayBase' now' entries' ar'
    ∧ (evaluate p osched todayBase now entries ar).recurring =
      (evaluate p' osched' todayBase' now' entries' ar').recurring
    ∧ (evaluate p osched todayBase now entries ar).initialLate =
      (evaluate p' osched' todayBase' now' entries' ar').initialLate := by
  subst hp hs hb hn he hr
  exact ⟨rfl, rfl, rfl⟩

/-- Witness for C6 at a concrete tuple. -/
theorem evaluation_deterministic_witness :
    evaluate Permission.granted (some ⟨"08:00", "12:00", "13:00", "17:00"⟩) 0 43330000
        [⟨28800000, EntryType.ClockIn⟩]
        (some ⟨43200000, "início de pausa (12:00)", EntryType.BreakStart, 43200000, true⟩) =
      evaluate Permission.granted (some ⟨"08:00", "12:00", "13:00", "17:00"⟩) 0 43330000
        [⟨28800000, EntryType.ClockIn⟩]
        (some ⟨43200000, "início de pausa (12:00)", EntryType.BreakStart, 43200000, true⟩) :=
  (evaluation_deterministic _ _ _ _ _ _ _ _ _ _ _ _ rfl rfl rfl rfl rfl rfl).1

/-! ### C7 — a throwing notification capability -/

/-- With a working notification capability, the throwing model agrees with
the pure evaluation: the cycle always completes. -/
theorem evaluateThrow_true_ok (permission : Permission) (schedule : Option DailySchedule)
    (todayBase now : Int) (entries : List TimeEntry) (ar : Option ActiveReminderInfo) :
    evaluateThrow true permission schedule todayBase now entries ar =
      Except.ok (evaluate permission schedule todayBase now entries ar) := by
  cases schedule with
  | none => cases permission <;> rfl
  | some sched =>
    cases permission with
    | denied => rfl
    | defaultPerm => rfl
    | granted =>
      cases ar with
      | some r =>
        simp only [evaluateThrow, evaluate]
        split_ifs <;> rfl
      | none =>
        rcases hnt : nextTarget sched todayBase now ((sortEntries entries).getLast?)
          with _ | target
        · simp only [evaluateThrow, evaluate, hnt]
        · simp only [evaluateThrow, evaluate, hnt]
          split_ifs <;> rfl

/-- C7 counterexample: the source wraps neither `new Notification` call in a
`try`/`catch`, so at a cycle that must dispatch a recurring notification a
throwing capability aborts the whole evaluation (modelled as
`Except.error ()`), contradicting the claim that the failure is swallowed. -/
theorem notification_throw_crashes_counterexample :
    evaluateThrow false Permission.granted (some ⟨"08:00", "12:00", "13:00", "17:00"⟩) 0
        43330000 [⟨28800000, EntryType.ClockIn⟩]
        (some ⟨43200000, "início de pausa (12:00)", EntryType.BreakStart, 43200000, true⟩) =
      Except.error () := by rfl

/-- C7 amended: a throwing notification capability aborts the evaluation
cycle exactly when the cycle dispatches a notification (recurring or
immediate initial); the abort happens before the `setActiveReminder` call
that follows the dispatch, so the stored reminder keeps its pre-cycle value
rather than the value the cycle decided; with a working capability the cycle
never fails. -/
theorem notification_throw_propagates :
    (∀ (permission : Permission) (schedule : Option DailySchedule) (todayBase now : Int)
        (entries : List TimeEntry) (ar : Option ActiveReminderInfo),
        evaluateThrow true permission schedule todayBase now entries ar =
          Except.ok (evaluate permission schedule todayBase now entries ar))
    ∧ (∀ (permission : Permission) (schedule : Option DailySchedule) (todayBase now : Int)
        (entries : List TimeEntry) (ar : Option ActiveReminderInfo),
        evaluateThrow false permission schedule todayBase now entries ar = Except.error () ↔
          ((evaluate permission schedule todayBase now entries ar).recurring.isSome = true ∨
           (evaluate permission schedule todayBase now entries ar).initialLate.isSome = true)) := by
  refine ⟨evaluateThrow_true_ok, ?_⟩
  intro permission schedule todayBase now entries ar
  cases schedule with
  | none => cases permission <;> simp [evaluateThrow, evaluate, noAction]
  | some sched =>
    cases permission with
    | denied => simp [evaluateThrow, evaluate, noAction]
    | defaultPerm => simp [evaluateThrow, evaluate, noAction]
    | granted =>
      cases ar with
      | some r =>
        simp only [evaluateThrow, evaluate]
        split_ifs <;> simp_all [noAction]
      | none =>
        rcases hnt : nextTarget sched todayBase now ((sortEntries entries).getLast?)
          with _ | target
        · simp [evaluateThrow, evaluate, hnt, noAction]
        · simp only [evaluateThrow, evaluate, hnt]
          split_ifs <;> simp_all [noAction]

/-- Witness for C7 (amended): at a cycle with nothing to dispatch, the
throwing capability is harmless, and the working capability always returns
`ok`. -/
theorem notification_throw_propagates_witness :
    evaluateThrow true Permission.granted (some ⟨"08:00", "12:00", "13:00", "17:00"⟩) 0
        43310000 [⟨28800000, EntryType.ClockIn⟩]
        (some ⟨43200000, "início de pausa (12:00)", EntryType.BreakStart, 43200000, true⟩) =
      Except.ok (evaluate Permission.granted (some ⟨"08:00", "12:00", "13:00", "17:00"⟩) 0
        43310000 [⟨28800000, EntryType.ClockIn⟩]
        (some ⟨43200000, "início de pausa (12:00)", EntryType.BreakStart, 43200000, true⟩)) :=
  notification_throw_propagates.1 Permission.granted _ 0 43310000 _ _

/-! ### C8 — malformed schedule times are skipped, not fatal -/

/-- C8: a schedule field that does not match `HH:mm` parses to `null`, can
never supply the target of a reminder for its slot, and the cycle still
completes normally (the working-capability run always returns `ok`). -/
theorem malformed_schedule_slot_skipped :
    (∀ (todayBase : Int) (s : String),
        matchesHHMM s = false → parseHHMMToDate todayBase s = none)
    ∧ (∀ (sched : DailySchedule) (todayBase now : Int) (lastEntry : Option TimeEntry)
        (r : ActiveReminderInfo), nextTarget sched todayBase now lastEntry = some r →
        (matchesHHMM sched.breakStart = false → r.expectedEntryType ≠ EntryType.BreakStart)
        ∧ (matchesHHMM sched.breakEnd = false → r.expectedEntryType ≠ EntryType.BreakEnd)
        ∧ (matchesHHMM sched.clockOut = false → r.expectedEntryType ≠ EntryType.ClockOut))
    ∧ (∀ (permission : Permission) (schedule : Option DailySchedule) (todayBase now : Int)
        (entries : List TimeEntry) (ar : Option ActiveReminderInfo),
        evaluateThrow true permission schedule todayBase now entries ar =
          Except.ok (evaluate permission schedule todayBase now entries ar)) := by
  refine ⟨parse_none_of_malformed, ?_, evaluateThrow_true_ok⟩
  intro sched todayBase now lastEntry r h
  rcases (nextTarget_characterization _ _ _ _ _ h).2.2.2 with
    ⟨hty, hparse⟩ | ⟨hty, hparse⟩ | ⟨hty, hparse⟩ <;>
    refine ⟨?_, ?_, ?_⟩ <;> intro hmal <;> rw [hty] <;>
    first
    | exact fun hc => Option.noConfusion
        ((parse_none_of_malformed todayBase _ hmal).symm.trans hparse)
    | simp

/-- Witness for C8: a one-digit-hour break-start time is rejected by the
shape test, parses to `null`, and the cycle at that schedule simply targets
the next well-formed slot. -/
theorem malformed_schedule_slot_skipped_witness :
    parseHHMMToDate 0 "9:30" = none ∧
    ((matchesHHMM (⟨"08:00", "9:30", "13:00", "17:00"⟩ : DailySchedule).breakStart = false →
        (⟨46800000, "fim de pausa (13:00)", EntryType.BreakEnd, 43200000,
          false⟩ : ActiveReminderInfo).expectedEntryType ≠ EntryType.BreakStart)) :=
  ⟨malformed_schedule_slot_skipped.1 0 "9:30" (by decide),
   ((malformed_schedule_slot_skipped.2.1 ⟨"08:00", "9:30", "13:00", "17:00"⟩ 0 43200000
      (some ⟨28800000, EntryType.ClockIn⟩) _ (by decide)).1)⟩

/-! ### C10 — calculateWorkDuration -/

/-- Final value of `lastActiveEntryTime` after running the segment loop with
initial value `la`. -/
def finalActive : Option Int → List TimeEntry → Option Int
  | la, [] => la
  | _, e :: rest =>
    if isActiveType e.entryType then finalActive (some e.entryDate) rest
    else finalActive none rest

/-- The accumulated seconds of the segment loop are the initial total plus
the claim's segment sum (an open segment when `la` is pending). -/
theorem workLoop_total (l : List TimeEntry) :
    ∀ (T : ℚ) (la : Option Int) (w : Bool),
      (workLoop ⟨T, la, w⟩ l).calculatedTotalSeconds =
        T + (match la with
             | some s => specOpenSegment s l
             | none => specSegments l) := by
  induction l with
  | nil =>
    intro T la w
    cases la <;> simp [workLoop, specSegments, specOpenSegment]
  | cons e rest ih =>
    intro T la w
    obtain ⟨d, ty⟩ := e
    cases ty <;> cases la <;>
      simp [workLoop, specSegments, specOpenSegment, isActiveType, ih] <;> ring

/-- The final `lastActiveEntryTime` of the segment loop. -/
theorem workLoop_lastActive (l : List TimeEntry) :
    ∀ (T : ℚ) (la : Option Int) (w : Bool),
      (workLoop ⟨T, la, w⟩ l).lastActiveEntryTime = finalActive la l := by
  induction l with
  | nil =>
    intro T la w
    cases la <;> simp [workLoop, finalActive]
  | cons e rest ih =>
    intro T la w
    obtain ⟨d, ty⟩ := e
    cases ty <;> cases la <;> simp [workLoop, finalActive, isActiveType, ih]

/-- One step of the segment loop. -/
theorem workLoop_cons (acc : WorkAcc) (e : TimeEntry) (rest : List TimeEntry) :
    workLoop acc (e :: rest) =
      (if e.entryType = EntryType.ClockIn ∨ e.entryType = EntryType.BreakEnd then
        workLoop
          { acc with
              lastActiveEntryTime := some e.entryDate,
              currentlyWorking := if rest.isEmpty then true else acc.currentlyWorking } rest
      else
        match acc.lastActiveEntryTime with
        | some t =>
          workLoop
            { calculatedTotalSeconds :=
                acc.calculatedTotalSeconds + ((e.entryDate - t : Int) : ℚ) / 1000,
              lastActiveEntryTime := none, currentlyWorking := false } rest
        | none => workLoop acc rest) := rfl

/-- Dropping the head of a list with at least two elements keeps the last
element, hence the working criterion. -/
theorem specCurrentlyWorking_cons_cons (e e2 : TimeEntry) (rest2 : List TimeEntry) :
    specCurrentlyWorking (e :: e2 :: rest2) = specCurrentlyWorking (e2 :: rest2) := by
  unfold specCurrentlyWorking
  rw [List.getLast?_cons_cons]

/-- Started with `currentlyWorking = false`, the loop ends working exactly
when the final entry of the list is a `ClockIn` or `BreakEnd`. -/
theorem workLoop_working (l : List TimeEntry) :
    ∀ (T : ℚ) (la : Option Int),
      (workLoop ⟨T, la, false⟩ l).currentlyWorking = specCurrentlyWorking l := by
  induction l with
  | nil =>
    intro T la
    cases la <;> simp [workLoop, specCurrentlyWorking]
  | cons e rest ih =>
    intro T la
    rw [workLoop_cons]
    obtain ⟨d, ty⟩ := e
    cases rest with
    | nil =>
      cases ty <;> cases la <;>
        simp [workLoop, specCurrentlyWorking, isActiveType]
    | cons e2 rest2 =>
      rw [specCurrentlyWorking_cons_cons]
      have hne : (e2 :: rest2).isEmpty = false := rfl
      cases ty
      case ClockIn =>
        rw [if_pos (Or.inl rfl), hne]
        simp only [Bool.false_eq_true, if_false]
        exact ih _ _
      case BreakEnd =>
        rw [if_pos (Or.inr rfl), hne]
        simp only [Bool.false_eq_true, if_false]
        exact ih _ _
      case ClockOut =>
        rw [if_neg (by simp)]
        cases la with
        | none => exact ih _ _
        | some t => exact ih _ _
      case BreakStart =>
        rw [if_neg (by simp)]
        cases la with
        | none => exact ih _ _
        | some t => exact ih _ _

/-- When the list ends in an active entry, filtering to active entries keeps
the same last element. -/
theorem filter_active_getLast?_of_working (l : List TimeEntry)
    (h : specCurrentlyWorking l = true) :
    (l.filter fun e => isActiveType e.entryType).getLast? = l.getLast? := by
  induction l with
  | nil => simp [specCurrentlyWorking] at h
  | cons e rest ih =>
    cases rest with
    | nil =>
      unfold specCurrentlyWorking at h
      simp only [List.getLast?_singleton] at h
      simp [List.filter_cons, h]
    | cons e2 rest2 =>
      have h2 : specCurrentlyWorking (e2 :: rest2) = true := by
        unfold specCurrentlyWorking at h ⊢
        rwa [List.getLast?_cons_cons] at h
      have ih2 := ih h2
      rw [List.getLast?_cons_cons, List.filter_cons]
      split_ifs with hf
      · rcases hL : (e2 :: rest2).filter (fun e => isActiveType e.entryType) with _ | ⟨f, fs⟩
        · exfalso
          rw [hL] at ih2
          have h0 : (e2 :: rest2).getLast? = none := by simpa using ih2.symm
          rw [List.getLast?_eq_none_iff] at h0
          exact List.cons_ne_nil _ _ h0
        · rw [hL, List.getLast?_cons_cons]
          rw [hL] at ih2
          exact ih2
      · exact ih2

/-- When the list ends in an active entry, the loop's final
`lastActiveEntryTime` is the date of that last entry, whatever the initial
pending value. -/
theorem finalActive_of_working (l : List TimeEntry)
    (h : specCurrentlyWorking l = true) :
    ∀ la, finalActive la l = (l.getLast?).map TimeEntry.entryDate := by
  induction l with
  | nil => simp [specCurrentlyWorking] at h
  | cons e rest ih =>
    intro la
    cases rest with
    | nil =>
      unfold specCurrentlyWorking at h
      simp only [List.getLast?_singleton] at h
      simp [finalActive, h, List.getLast?_singleton]
    | cons e2 rest2 =>
      have h2 : specCurrentlyWorking (e2 :: rest2) = true := by
        unfold specCurrentlyWorking at h ⊢
        rwa [List.getLast?_cons_cons] at h
      rw [List.getLast?_cons_cons]
      unfold finalActive
      split_ifs <;> exact ih h2 _

/-- C10: `calculateWorkDuration` sorts the entries by `entryDate` (the sorted
list is a sorted permutation of the input) and then returns exactly the
claim's description: `isCurrentlyWorking` holds iff the chronologically last
entry is a `ClockIn` or `BreakEnd`, and the total equals the sum over
completed segments plus, exactly when currently working, the open segment
from the last `ClockIn`/`BreakEnd` entry to the current tick time. -/
theorem calculateWorkDuration_correct (entries : List TimeEntry) (tick : Int) :
    List.Perm (sortEntries entries) entries
    ∧ List.Sorted entryDateLE (sortEntries entries)
    ∧ calculateWorkDuration entries tick =
        (specWorkedSeconds (sortEntries entries) tick,
         specCurrentlyWorking (sortEntries entries)) := by
  refine ⟨List.perm_insertionSort _ _, List.sorted_insertionSort _ _, ?_⟩
  unfold calculateWorkDuration
  have hT := workLoop_total (sortEntries entries) 0 none false
  have hA := workLoop_lastActive (sortEntries entries) 0 none false
  have hW := workLoop_working (sortEntries entries) 0 none
  cases hw : specCurrentlyWorking (sortEntries entries) with
  | false =>
    rw [hw] at hW
    simp only [hW, Bool.false_eq_true, if_false, hT]
    simp [specWorkedSeconds, hw]
  | true =>
    rw [hw] at hW
    have hfin := finalActive_of_working (sortEntries entries) hw none
    rcases hg : (sortEntries entries).getLast? with _ | e
    · unfold specCurrentlyWorking at hw
      rw [hg] at hw
      exact Bool.noConfusion hw
    · rw [hg] at hfin
      simp only [Option.map_some'] at hfin
      rw [hfin] at hA
      simp only [hW, if_true, hA, hT]
      have hlad : lastActiveEntryDate (sortEntries entries) = some e.entryDate := by
        unfold lastActiveEntryDate
        rw [filter_active_getLast?_of_working _ hw, hg]
        rfl
      simp [specWorkedSeconds, hw, hlad]

end PulseShift
